import Mathlib

/-!
Shallow embedding of the Secure Message Protocol Engine of the
client-server-with-encryption repository.

The Go sources embedded here:
  internal/crypto/securemessage.go : message codec, nonce tracker, freshness
  internal/crypto/hmac.go          : HMAC generation and constant-time check
  crypto admission file (AESEncrypt/AESDecrypt with ConcurrencyCheck,
  RateLimitCheck, PKCS7 padding)
  crypto DH file (ComputeDHSharedSecret, GenerateDHKeyPair)

Conventions of the embedding:
  byte strings are `List Nat`; Go `time.Time`/Unix timestamps are `Int`
  (one fixed unit per component, matching the component's own unit);
  Go maps are association lists; fallible Go functions return `Except`;
  the external cryptographic primitives (AES block cipher in CBC mode,
  HMAC-SHA256, ECDSA, RSA, SHA-256, the elliptic curve) are collaborator
  parameters, exactly as the specification classifies them; the repository
  code built on top of them (padding, splitting of the shared secret,
  check ordering, nonce bookkeeping, admission control) is translated
  literally.
-/

namespace ClientServer

/-! ## Constants from internal/crypto/securemessage.go and the admission file -/

def AESKeySize : Nat := 32
def HMACKeySize : Nat := 32
def NonceSize : Nat := 16
/-- MaxTimeDifference = 30 seconds (securemessage.go line 21). -/
def MaxTimeDifference : Int := 30
/-- MaxNonceStorage = 10000 (securemessage.go line 23). -/
def MaxNonceStorage : Nat := 10000
/-- NonceCleanupInterval = 5 minutes, in seconds (securemessage.go line 22). -/
def NonceCleanupInterval : Int := 300
/-- maxConcurrentOps = 100 (admission file line 19). -/
def maxConcurrentOps : Int := 100
/-- aes.BlockSize = 16. -/
def aesBlockSize : Nat := 16

/-! ## PKCS#7 padding (PKCS7Pad / PKCS7Unpad, translated from the source) -/

/-- Errors of the AES path (aes.NewCipher failure, PKCS7Unpad failures,
and admission denial in AESDecrypt). -/
inductive CryptoErr where
  | concurrencyExceeded
  | invalidKeySize
  | emptyData
  | invalidPadding
  deriving DecidableEq, Repr

/-- PKCS7Pad: pad := BlockSize - len(data) % BlockSize; append pad copies of pad. -/
def PKCS7Pad (data : List Nat) : List Nat :=
  let pad := aesBlockSize - data.length % aesBlockSize
  data ++ List.replicate pad pad

/-- PKCS7Unpad: reject empty data; read the final byte as the pad length;
reject pad = 0 or pad > BlockSize; check the trailing pad bytes; strip them. -/
def PKCS7Unpad (data : List Nat) : Except CryptoErr (List Nat) :=
  if data.length = 0 then .error .emptyData
  else
    let pad := data.getLastD 0
    if aesBlockSize < pad ∨ pad = 0 then .error .invalidPadding
    else if (data.drop (data.length - pad)).all (fun b => b == pad) then
      .ok (data.take (data.length - pad))
    else .error .invalidPadding

/-! ## External primitives (collaborators, per spec section 1) -/

/-- The primitive suite the codec is built on. The fields stand for the Go
standard-library collaborators: CBC-mode AES encryption and decryption under a
key and IV, HMAC-SHA256, ECDSA signing over a private key and verification
against marshalled public-key bytes, and the same for RSA. -/
structure Prims where
  cbcEnc : List Nat → List Nat → List Nat → List Nat
  cbcDec : List Nat → List Nat → List Nat → List Nat
  hmacSHA256 : List Nat → List Nat → List Nat
  ecdsaSign : List Nat → List Nat → List Nat
  ecdsaVerify : List Nat → List Nat → List Nat → Bool
  rsaSign : List Nat → List Nat → List Nat
  rsaVerify : List Nat → List Nat → List Nat → Bool

/-- GenerateHMAC (hmac.go): HMAC-SHA256 of the data under the key. -/
def GenerateHMAC (P : Prims) (key data : List Nat) : List Nat :=
  P.hmacSHA256 key data

/-- Functional model of subtle.ConstantTimeCompare: 1 exactly when the two
byte strings have equal length and content. -/
def ConstantTimeCompare (a b : List Nat) : Nat :=
  if a = b then 1 else 0

/-- VerifyHMAC (hmac.go): recompute and compare in constant time. -/
def VerifyHMAC (P : Prims) (key data mac : List Nat) : Bool :=
  ConstantTimeCompare mac (GenerateHMAC P key data) == 1

/-! ## Admission control: the concurrency gate (sequential projection)

ConcurrencyCheck in the source is two separate atomic operations
(atomic.LoadInt64 then atomic.AddInt64).  The small-step interleaving model
of those two operations is `ccStep` below; the definitions in this section
are the projection onto a single caller running without interference, which
is the case on the sequential send and receive paths. -/

/-- One caller's view of ConcurrencyCheck: fails when the counter is at or
above the cap, otherwise increments it. -/
def ConcurrencyCheck (c : Int) : Except CryptoErr Int :=
  if maxConcurrentOps ≤ c then .error .concurrencyExceeded else .ok (c + 1)

/-- ConcurrencyRelease: decrement the counter. -/
def ConcurrencyRelease (c : Int) : Int := c - 1

/-- aes.NewCipher accepts exactly 16-, 24- or 32-byte keys. -/
def validAESKeyLength (n : Nat) : Prop := n = 16 ∨ n = 24 ∨ n = 32

instance (n : Nat) : Decidable (validAESKeyLength n) := by
  unfold validAESKeyLength; infer_instance

/-- Outcome of AESEncrypt, whose Go signature has no error channel:
normal ciphertext, the silent nil return on admission denial, or the panic
raised when aes.NewCipher rejects the key. -/
inductive EncOut where
  | ok (ct : List Nat)
  | deniedNil
  | panicked
  deriving DecidableEq, Repr

/-- AESEncrypt (admission file): ConcurrencyCheck first; on denial, sleep and
return nil with no error; then aes.NewCipher (panic on bad key), PKCS7Pad,
CBC-encrypt.  The deferred ConcurrencyRelease restores the counter, so the
counter after the call equals the counter before it. -/
def AESEncrypt (P : Prims) (key iv plaintext : List Nat) (c : Int) : EncOut × Int :=
  if maxConcurrentOps ≤ c then (.deniedNil, c)
  else if ¬ validAESKeyLength key.length then (.panicked, c)
  else (.ok (P.cbcEnc key iv (PKCS7Pad plaintext)), c)

/-- AESDecrypt (admission file): ConcurrencyCheck first (here the denial is a
returned error), aes.NewCipher, CBC-decrypt, PKCS7Unpad. -/
def AESDecrypt (P : Prims) (key iv ciphertext : List Nat) (c : Int) :
    Except CryptoErr (List Nat) × Int :=
  if maxConcurrentOps ≤ c then (.error .concurrencyExceeded, c)
  else if ¬ validAESKeyLength key.length then (.error .invalidKeySize, c)
  else (PKCS7Unpad (P.cbcDec key iv ciphertext), c)

/-! ## Nonce tracker (securemessage.go, NonceTracker) -/

/-- The rejection kinds of VerifyAndDecryptMessage, one per distinct Go error
value, in source order. -/
inductive VerifyError where
  | staleTimestamp
  | replayDetected
  | hmacFailed
  | ecdsaInvalid
  | rsaInvalid
  | decryptFailed (e : CryptoErr)
  deriving DecidableEq, Repr

/-- The nonce map of a NonceTracker: nonce value to first-seen time. -/
abbrev NonceMap := List (List Nat × Int)

/-- cleanupOldNonces: delete every entry whose time is before now minus the
cleanup interval. -/
def cleanupOldNonces (nonces : NonceMap) (now : Int) : NonceMap :=
  nonces.filter (fun p => ¬ p.2 < now - NonceCleanupInterval)

/-- AddNonce: under one lock, reject a nonce already in the map; otherwise,
when the map has reached maxSize, run the cleanup sweep; then record the nonce
with the current time. -/
def AddNonce (nonces : NonceMap) (nonce : List Nat) (now : Int) :
    Except VerifyError NonceMap :=
  if (nonces.lookup nonce).isSome then .error .replayDetected
  else
    let cleaned := if MaxNonceStorage ≤ nonces.length then cleanupOldNonces nonces now
      else nonces
    .ok (cleaned ++ [(nonce, now)])

/-! ## The message codec (securemessage.go) -/

/-- The envelope: Message struct of securemessage.go, field for field. -/
structure Message where
  Timestamp : Int
  Nonce : List Nat
  IV : List Nat
  Cipher : List Nat
  HMAC : List Nat
  Signature : List Nat
  PubKey : List Nat
  RSASig : List Nat
  deriving DecidableEq, Repr

/-- The mutable state the receive path touches: the global nonce tracker map
and the shared in-flight operation counter. -/
structure VerifyState where
  nonces : NonceMap
  concurrent : Int
  deriving DecidableEq, Repr

/-- CreateSecureMessage: draw iv and nonce (passed in as the random values the
source reads from crypto/rand), AES-encrypt under the leading AESKeySize bytes
of the shared secret, HMAC the ciphertext under the remaining bytes, sign the
ciphertext with ECDSA and with RSA, stamp the time, assemble the envelope.
`none` models the propagated panic of AESEncrypt on an invalid key; on
admission denial AESEncrypt returns nil and the envelope is still assembled,
with an empty ciphertext. -/
def CreateSecureMessage (P : Prims) (plaintext sharedSecret ecdsaPriv ecdhPub rsaPriv : List Nat)
    (iv nonce : List Nat) (now : Int) (c : Int) : Option Message × Int :=
  match AESEncrypt P (sharedSecret.take AESKeySize) iv plaintext c with
  | (.panicked, c2) => (none, c2)
  | (.deniedNil, c2) =>
    (some { Timestamp := now, Nonce := nonce, IV := iv, Cipher := [],
            HMAC := GenerateHMAC P (sharedSecret.drop AESKeySize) [],
            Signature := P.ecdsaSign ecdsaPriv [], PubKey := ecdhPub,
            RSASig := P.rsaSign rsaPriv [] }, c2)
  | (.ok ct, c2) =>
    (some { Timestamp := now, Nonce := nonce, IV := iv, Cipher := ct,
            HMAC := GenerateHMAC P (sharedSecret.drop AESKeySize) ct,
            Signature := P.ecdsaSign ecdsaPriv ct, PubKey := ecdhPub,
            RSASig := P.rsaSign rsaPriv ct }, c2)

/-- VerifyAndDecryptMessage: the six receive-path steps in source order —
freshness window on the timestamp, AddNonce on the global tracker, HMAC with
constant-time comparison, ECDSA signature, RSA signature, AES decryption with
padding removal — each returning its own error and aborting the rest. -/
def VerifyAndDecryptMessage (P : Prims) (msg : Message) (sharedSecret rsaPubKey : List Nat)
    (now : Int) (st : VerifyState) : Except VerifyError (List Nat) × VerifyState :=
  if MaxTimeDifference < now - msg.Timestamp ∨ now < msg.Timestamp - MaxTimeDifference then
    (.error .staleTimestamp, st)
  else
    match AddNonce st.nonces msg.Nonce now with
    | .error e => (.error e, st)
    | .ok ns =>
      if !VerifyHMAC P (sharedSecret.drop AESKeySize) msg.Cipher msg.HMAC then
        (.error .hmacFailed, ⟨ns, st.concurrent⟩)
      else if !P.ecdsaVerify msg.PubKey msg.Cipher msg.Signature then
        (.error .ecdsaInvalid, ⟨ns, st.concurrent⟩)
      else if !P.rsaVerify rsaPubKey msg.Cipher msg.RSASig then
        (.error .rsaInvalid, ⟨ns, st.concurrent⟩)
      else
        match AESDecrypt P (sharedSecret.take AESKeySize) msg.IV msg.Cipher st.concurrent with
        | (.ok pt, c2) => (.ok pt, ⟨ns, c2⟩)
        | (.error e, c2) => (.error (.decryptFailed e), ⟨ns, c2⟩)

/-! ## Rate limiter (admission file, RateLimitCheck) -/

/-- minOpInterval = 10 ms, in nanoseconds (the unit of Go durations). -/
def minOpInterval : Int := 10000000
/-- Retention window of the rate-limit map: one minute, in nanoseconds. -/
def rateRetention : Int := 60000000000

inductive RateError where
  | tooFrequent
  deriving DecidableEq, Repr

/-- The rate-limit map: client identifier to last accepted-operation time. -/
abbrev RateMap := List (String × Int)

/-- Go map assignment m[k] = v on the association-list model: the entry for k
is replaced (Go map iteration order is unspecified, so placing the updated
entry first is a free choice of representation). -/
def setEntry (m : RateMap) (k : String) (v : Int) : RateMap :=
  (k, v) :: m.filter (fun p => p.1 ≠ k)

/-- The opportunistic eviction in RateLimitCheck: drop entries older than the
retention window. -/
def rateEvict (m : RateMap) (now : Int) : RateMap :=
  m.filter (fun p => ¬ p.2 < now - rateRetention)

/-- RateLimitCheck: under one lock, reject when the client's last recorded
operation is less than minOpInterval ago; otherwise record now as the client's
last operation and evict entries older than one minute. -/
def RateLimitCheck (m : RateMap) (clientID : String) (now : Int) :
    Except RateError Unit × RateMap :=
  match m.lookup clientID with
  | some lastOp =>
    if now - lastOp < minOpInterval then (.error .tooFrequent, m)
    else (.ok (), rateEvict (setEntry m clientID now) now)
  | none => (.ok (), rateEvict (setEntry m clientID now) now)

/-! ## Small-step interleaving model of ConcurrencyCheck

The source's ConcurrencyCheck is
    current := atomic.LoadInt64(&concurrentOps)
    if current >= maxConcurrentOps { return error }
    atomic.AddInt64(&concurrentOps, 1)
two atomic operations with a window between them.  Each thread is therefore a
two-step program: first the load, then the compare-and-add.  A schedule picks
which thread steps next. -/

/-- Progress of one thread through ConcurrencyCheck. -/
inductive TPhase where
  | ready
  | loaded (v : Int)
  | acquired
  | denied
  deriving DecidableEq, Repr

/-- Shared counter plus the per-thread phases. -/
structure CCState where
  counter : Int
  threads : List TPhase
  deriving DecidableEq, Repr

/-- One scheduled step of the thread `tid`: a ready thread performs the atomic
load; a loaded thread compares its loaded value with the cap and either
returns the error (no write) or performs the atomic add. -/
def ccStep (s : CCState) (tid : Nat) : CCState :=
  match s.threads.getD tid .acquired with
  | .ready => { s with threads := s.threads.set tid (.loaded s.counter) }
  | .loaded v =>
    if maxConcurrentOps ≤ v then { s with threads := s.threads.set tid .denied }
    else { counter := s.counter + 1, threads := s.threads.set tid .acquired }
  | _ => s

/-- Run a schedule of thread identifiers. -/
def ccRun (s : CCState) (sched : List Nat) : CCState :=
  sched.foldl ccStep s

/-! ## Key agreement -/

/-- ComputeSharedSecret (securemessage.go): parse the peer public key, multiply
the peer point by the local private scalar with Curve.ScalarMult, and return
SHA-256 of the x-coordinate bytes.  The curve is the external collaborator: its
points form an additive commutative monoid on which scalars act, which is the
contract Curve.ScalarMult exposes; `xCoord` reads off the x-coordinate bytes
and `sha256` is the external hash, which by its Go type returns 32 bytes. -/
def ComputeSharedSecret {G : Type} [AddCommMonoid G] (sha256 : Nat → List Nat)
    (xCoord : G → Nat) (privD : Nat) (peerPub : G) : List Nat :=
  sha256 (xCoord (privD • peerPub))

/-- The public value of GenerateDHKeyPair: g to the private exponent, mod p. -/
def DHPublic (g priv p : Nat) : Nat := g ^ priv % p

/-- ComputeDHSharedSecret (DH file): hash of peerPublic to the private
exponent, mod p.  `hash` is the external SHA-256 over the big-int bytes. -/
def ComputeDHSharedSecret (hash : Nat → List Nat) (privateKey peerPublicKey p : Nat) :
    List Nat :=
  hash (peerPublicKey ^ privateKey % p)

/-! ## Spec-worded receive pipeline

The specification describes the receive path as a fixed list of checks run in
one order with a short circuit at the first failure.  `VerifyTraced` is that
description written out directly: it performs the checks in the spec's order,
records the name of every check it executes, and stops at the first failure.
It is compared with the source-translated `VerifyAndDecryptMessage` in the
theorem for the ordering claim. -/

/-- The spec's receive-path check order. -/
def verifyCheckOrder : List String :=
  ["freshness", "replay", "hmac", "ecdsa", "rsa", "decrypt"]

/-- The receive pipeline as the spec words it, instrumented with the list of
checks actually executed. -/
def VerifyTraced (P : Prims) (msg : Message) (sharedSecret rsaPubKey : List Nat)
    (now : Int) (st : VerifyState) :
    (Except VerifyError (List Nat) × VerifyState) × List String :=
  if MaxTimeDifference < now - msg.Timestamp ∨ now < msg.Timestamp - MaxTimeDifference then
    ((.error .staleTimestamp, st), ["freshness"])
  else
    match AddNonce st.nonces msg.Nonce now with
    | .error e => ((.error e, st), ["freshness", "replay"])
    | .ok ns =>
      if !VerifyHMAC P (sharedSecret.drop AESKeySize) msg.Cipher msg.HMAC then
        ((.error .hmacFailed, ⟨ns, st.concurrent⟩), ["freshness", "replay", "hmac"])
      else if !P.ecdsaVerify msg.PubKey msg.Cipher msg.Signature then
        ((.error .ecdsaInvalid, ⟨ns, st.concurrent⟩), ["freshness", "replay", "hmac", "ecdsa"])
      else if !P.rsaVerify rsaPubKey msg.Cipher msg.RSASig then
        ((.error .rsaInvalid, ⟨ns, st.concurrent⟩),
          ["freshness", "replay", "hmac", "ecdsa", "rsa"])
      else
        match AESDecrypt P (sharedSecret.take AESKeySize) msg.IV msg.Cipher st.concurrent with
        | (.ok pt, c2) => ((.ok pt, ⟨ns, c2⟩), verifyCheckOrder)
        | (.error e, c2) => ((.error (.decryptFailed e), ⟨ns, c2⟩), verifyCheckOrder)

/-! ## Helper lemmas -/

theorem length_PKCS7Pad_mod (d : List Nat) : (PKCS7Pad d).length % aesBlockSize = 0 := by
  simp only [PKCS7Pad, aesBlockSize, List.length_append, List.length_replicate]
  omega

theorem PKCS7Unpad_append_replicate (d : List Nat) (p : Nat) (h1 : 1 ≤ p) (h16 : p ≤ 16) :
    PKCS7Unpad (d ++ List.replicate p p) = .ok d := by
  have hlast : (d ++ List.replicate p p).getLastD 0 = p := by
    rw [List.getLastD_eq_getLast?, List.getLast?_append, List.getLast?_replicate]
    have : ¬ p = 0 := by omega
    simp [this]
  have hlen : (d ++ List.replicate p p).length = d.length + p := by simp
  have hsub : d.length + p - p = d.length := by omega
  simp only [PKCS7Unpad, hlen, hlast, aesBlockSize]
  rw [if_neg (by omega), if_neg (by omega), hsub]
  rw [List.drop_left, List.take_left]
  rw [if_pos (by simp [List.all_eq_true, List.mem_replicate])]

theorem PKCS7_roundtrip (d : List Nat) : PKCS7Unpad (PKCS7Pad d) = .ok d := by
  have h : PKCS7Pad d =
      d ++ List.replicate (aesBlockSize - d.length % aesBlockSize)
        (aesBlockSize - d.length % aesBlockSize) := rfl
  rw [h]
  exact PKCS7Unpad_append_replicate d _
    (by simp only [aesBlockSize]; omega) (by simp only [aesBlockSize]; omega)

theorem AESEncrypt_ok (P : Prims) (key iv pt : List Nat) (c : Int)
    (hc : c < maxConcurrentOps) (hk : validAESKeyLength key.length) :
    AESEncrypt P key iv pt c = (.ok (P.cbcEnc key iv (PKCS7Pad pt)), c) := by
  unfold AESEncrypt
  rw [if_neg (by omega), if_neg (by simpa using hk)]

theorem AESDecrypt_roundtrip (P : Prims) (key iv pt : List Nat) (c : Int)
    (hc : c < maxConcurrentOps) (hk : validAESKeyLength key.length)
    (hcbc : P.cbcDec key iv (P.cbcEnc key iv (PKCS7Pad pt)) = PKCS7Pad pt) :
    AESDecrypt P key iv (P.cbcEnc key iv (PKCS7Pad pt)) c = (.ok pt, c) := by
  unfold AESDecrypt
  rw [if_neg (by omega), if_neg (by simpa using hk), hcbc, PKCS7_roundtrip]

theorem VerifyHMAC_self (P : Prims) (key data : List Nat) :
    VerifyHMAC P key data (GenerateHMAC P key data) = true := by
  simp [VerifyHMAC, ConstantTimeCompare]

/-- Core round-trip argument, shared by the claim theorems: a freshly
constructed envelope, verified against the same secret and matching keys,
with its nonce unseen and both admission gates open, decrypts to the original
plaintext. -/
theorem verify_create_roundtrip
    (P : Prims) (pt secret ekey epub rkey rpub iv nonce : List Nat)
    (now1 now2 c1 : Int) (st : VerifyState)
    (hsec : 64 ≤ secret.length)
    (hcbc : ∀ iv2 x, x.length % aesBlockSize = 0 →
      P.cbcDec (secret.take AESKeySize) iv2 (P.cbcEnc (secret.take AESKeySize) iv2 x) = x)
    (hE : ∀ d, P.ecdsaVerify epub d (P.ecdsaSign ekey d) = true)
    (hR : ∀ d, P.rsaVerify rpub d (P.rsaSign rkey d) = true)
    (hn : st.nonces.lookup nonce = none)
    (hc1 : c1 < maxConcurrentOps) (hc2 : st.concurrent < maxConcurrentOps)
    (hf1 : now2 - now1 ≤ MaxTimeDifference) (hf2 : now1 - now2 ≤ MaxTimeDifference) :
    ∃ m, (CreateSecureMessage P pt secret ekey epub rkey iv nonce now1 c1).1 = some m
      ∧ (VerifyAndDecryptMessage P m secret rpub now2 st).1 = Except.ok pt := by
  have hkey : validAESKeyLength (secret.take AESKeySize).length := by
    right; right
    simp only [List.length_take, AESKeySize]
    omega
  have henc := AESEncrypt_ok P (secret.take AESKeySize) iv pt c1 hc1 hkey
  refine ⟨{ Timestamp := now1, Nonce := nonce, IV := iv,
            Cipher := P.cbcEnc (secret.take AESKeySize) iv (PKCS7Pad pt),
            HMAC := GenerateHMAC P (secret.drop AESKeySize)
              (P.cbcEnc (secret.take AESKeySize) iv (PKCS7Pad pt)),
            Signature := P.ecdsaSign ekey (P.cbcEnc (secret.take AESKeySize) iv (PKCS7Pad pt)),
            PubKey := epub,
            RSASig := P.rsaSign rkey (P.cbcEnc (secret.take AESKeySize) iv (PKCS7Pad pt)) },
          ?_, ?_⟩
  · unfold CreateSecureMessage
    rw [henc]
  · have hfresh : ¬ (MaxTimeDifference < now2 - now1 ∨ now2 < now1 - MaxTimeDifference) := by
      simp only [MaxTimeDifference] at *
      omega
    have haddn : AddNonce st.nonces nonce now2 =
        .ok ((if MaxNonceStorage ≤ st.nonces.length then cleanupOldNonces st.nonces now2
          else st.nonces) ++ [(nonce, now2)]) := by
      unfold AddNonce
      rw [if_neg (by simp [hn])]
    have hdec : AESDecrypt P (secret.take AESKeySize) iv
        (P.cbcEnc (secret.take AESKeySize) iv (PKCS7Pad pt)) st.concurrent =
        (.ok pt, st.concurrent) :=
      AESDecrypt_roundtrip P _ iv pt _ hc2 hkey
        (hcbc iv (PKCS7Pad pt) (length_PKCS7Pad_mod pt))
    unfold VerifyAndDecryptMessage
    rw [if_neg hfresh]
    rw [haddn]
    rw [VerifyHMAC_self, hE, hR]
    rw [hdec]
    simp

theorem lookup_filter_none {k : List Nat} {l : NonceMap} (p : List Nat × Int → Bool)
    (h : l.lookup k = none) : (l.filter p).lookup k = none := by
  induction l with
  | nil => simp
  | cons hd tl ih =>
    rw [List.lookup_cons] at h
    cases hbeq : k == hd.1 with
    | true => rw [hbeq] at h; simp at h
    | false =>
      rw [hbeq] at h
      simp only at h
      cases hp : p hd with
      | true =>
        rw [List.filter_cons_of_pos hp]
        rw [List.lookup_cons, hbeq]
        exact ih h
      | false =>
        rw [List.filter_cons_of_neg (by simp [hp])]
        exact ih h

theorem lookup_append_of_none {k : List Nat} {l1 : NonceMap} (l2 : NonceMap)
    (h : l1.lookup k = none) : (l1 ++ l2).lookup k = l2.lookup k := by
  induction l1 with
  | nil => simp
  | cons hd tl ih =>
    rw [List.lookup_cons] at h
    cases hbeq : k == hd.1 with
    | true => rw [hbeq] at h; simp at h
    | false =>
      rw [hbeq] at h
      simp only at h
      rw [List.cons_append, List.lookup_cons, hbeq]
      exact ih h

/-- AddNonce rejects a present nonce with the replay error. -/
theorem addNonce_present {nonces : NonceMap} {nonce : List Nat} (now : Int)
    (h : (nonces.lookup nonce).isSome) :
    AddNonce nonces nonce now = .error .replayDetected := by
  unfold AddNonce
  rw [if_pos h]

/-- The only error AddNonce produces is the replay error. -/
theorem addNonce_error {nonces : NonceMap} {nonce : List Nat} {now : Int} {e : VerifyError}
    (h : AddNonce nonces nonce now = .error e) : e = .replayDetected := by
  unfold AddNonce at h
  by_cases hp : (nonces.lookup nonce).isSome
  · rw [if_pos hp] at h
    exact ((Except.error.injEq _ _).mp h).symm
  · rw [if_neg hp] at h
    simp at h

/-- A successfully added nonce is present afterwards, stamped with now. -/
theorem addNonce_ok_lookup {nonces ns : NonceMap} {nonce : List Nat} {now : Int}
    (h : AddNonce nonces nonce now = .ok ns) : ns.lookup nonce = some now := by
  unfold AddNonce at h
  by_cases hp : (nonces.lookup nonce).isSome
  · rw [if_pos hp] at h; simp at h
  · rw [if_neg hp] at h
    simp only [Except.ok.injEq] at h
    have hnone : nonces.lookup nonce = none := Option.not_isSome_iff_eq_none.mp hp
    have hcl : ((if MaxNonceStorage ≤ nonces.length then cleanupOldNonces nonces now
        else nonces)).lookup nonce = none := by
      split
      · exact lookup_filter_none _ hnone
      · exact hnone
    rw [← h, lookup_append_of_none _ hcl]
    simp

/-- How each receive-path outcome treats the tracker: freshness and replay
rejections leave the state untouched; every outcome that got past those two
checks has recorded the nonce, whether or not a later check failed. -/
theorem verify_nonce_cases (P : Prims) (msg : Message) (secret rpub : List Nat)
    (now : Int) (st : VerifyState) :
    ((VerifyAndDecryptMessage P msg secret rpub now st).1 = .error .staleTimestamp →
      (VerifyAndDecryptMessage P msg secret rpub now st).2 = st)
    ∧ ((VerifyAndDecryptMessage P msg secret rpub now st).1 = .error .replayDetected →
      (VerifyAndDecryptMessage P msg secret rpub now st).2 = st)
    ∧ ((VerifyAndDecryptMessage P msg secret rpub now st).1 ≠ .error .staleTimestamp →
      (VerifyAndDecryptMessage P msg secret rpub now st).1 ≠ .error .replayDetected →
      (VerifyAndDecryptMessage P msg secret rpub now st).2.nonces.lookup msg.Nonce = some now) := by
  unfold VerifyAndDecryptMessage
  by_cases h1 : MaxTimeDifference < now - msg.Timestamp ∨ now < msg.Timestamp - MaxTimeDifference
  · rw [if_pos h1]
    exact ⟨fun _ => rfl, fun _ => rfl, fun hs _ => absurd rfl hs⟩
  · rw [if_neg h1]
    cases h2 : AddNonce st.nonces msg.Nonce now with
    | error e =>
      have he : e = .replayDetected := addNonce_error h2
      subst he
      exact ⟨fun h => by simp at h, fun _ => rfl, fun _ hr => absurd rfl hr⟩
    | ok ns =>
      have hlook : ns.lookup msg.Nonce = some now := addNonce_ok_lookup h2
      dsimp only
      repeat' split
      all_goals exact ⟨fun h => by simp at h, fun h => by simp at h, fun _ _ => hlook⟩

instance {ε α : Type} [DecidableEq ε] [DecidableEq α] : DecidableEq (Except ε α) := fun x y =>
  match x, y with
  | .ok a, .ok b =>
    if h : a = b then isTrue (by rw [h]) else isFalse (by intro hc; cases hc; exact h rfl)
  | .ok _, .error _ => isFalse (by intro hc; cases hc)
  | .error _, .ok _ => isFalse (by intro hc; cases hc)
  | .error e, .error f =>
    if h : e = f then isTrue (by rw [h]) else isFalse (by intro hc; cases hc; exact h rfl)

/-- A concrete primitive suite satisfying the collaborator contracts, used to
evaluate the codec on explicit inputs: the block cipher is the identity
permutation, the MAC is a fixed tag, both signature schemes accept. -/
def trivPrims : Prims where
  cbcEnc := fun _ _ x => x
  cbcDec := fun _ _ x => x
  hmacSHA256 := fun _ _ => [7]
  ecdsaSign := fun _ _ => [1]
  ecdsaVerify := fun _ _ _ => true
  rsaSign := fun _ _ => [2]
  rsaVerify := fun _ _ _ => true

/-! ## Claim theorems -/

/-- C1: for every plaintext, every shared secret of at least 64 bytes and
matching key material, verifying an envelope freshly produced by
CreateSecureMessage — first verification of that envelope, inside the
freshness window, with both admission gates open — succeeds and returns
exactly the original plaintext. -/
theorem C1_roundtrip
    (P : Prims) (pt secret ekey epub rkey rpub iv nonce : List Nat)
    (now1 now2 c1 : Int) (st : VerifyState)
    (hsec : 64 ≤ secret.length)
    (hcbc : ∀ iv2 x, x.length % aesBlockSize = 0 →
      P.cbcDec (secret.take AESKeySize) iv2 (P.cbcEnc (secret.take AESKeySize) iv2 x) = x)
    (hE : ∀ d, P.ecdsaVerify epub d (P.ecdsaSign ekey d) = true)
    (hR : ∀ d, P.rsaVerify rpub d (P.rsaSign rkey d) = true)
    (hn : st.nonces.lookup nonce = none)
    (hc1 : c1 < maxConcurrentOps) (hc2 : st.concurrent < maxConcurrentOps)
    (hf1 : now2 - now1 ≤ MaxTimeDifference) (hf2 : now1 - now2 ≤ MaxTimeDifference) :
    ∃ m, (CreateSecureMessage P pt secret ekey epub rkey iv nonce now1 c1).1 = some m
      ∧ (VerifyAndDecryptMessage P m secret rpub now2 st).1 = Except.ok pt :=
  verify_create_roundtrip P pt secret ekey epub rkey rpub iv nonce now1 now2 c1 st
    hsec hcbc hE hR hn hc1 hc2 hf1 hf2

/-- Witness for C1 at a concrete instance: a 3-byte plaintext, a 64-byte
secret, the concrete primitive suite, construction at time 100 and
verification at time 110 from an empty tracker. -/
theorem C1_roundtrip_witness :
    ∃ m, (CreateSecureMessage trivPrims [1, 2, 3] (List.replicate 64 0) [3] [4] [5]
           (List.replicate 16 0) (List.replicate 16 9) 100 0).1 = some m
      ∧ (VerifyAndDecryptMessage trivPrims m (List.replicate 64 0) [6] 110 ⟨[], 0⟩).1 =
          Except.ok [1, 2, 3] :=
  C1_roundtrip trivPrims [1, 2, 3] (List.replicate 64 0) [3] [4] [5] [6]
    (List.replicate 16 0) (List.replicate 16 9) 100 110 0 ⟨[], 0⟩
    (by simp) (fun _ _ _ => rfl) (fun _ => rfl) (fun _ => rfl) rfl
    (by decide) (by decide) (by decide) (by decide)

/-- C2: the ECDH key agreement of securemessage.go returns SHA-256 of the
x-coordinate, hence exactly 32 bytes: the MAC-key segment secret drop
AESKeySize of that secret is empty, and the 64-byte lower bound the spec
requires of the shared secret fails. -/
theorem C2_sharedSecret_too_short {G : Type} [AddCommMonoid G]
    (sha256 : Nat → List Nat) (xCoord : G → Nat) (d : Nat) (pub : G)
    (hsha : ∀ x, (sha256 x).length = 32) :
    (ComputeSharedSecret sha256 xCoord d pub).length = 32
    ∧ ((ComputeSharedSecret sha256 xCoord d pub).drop AESKeySize).length = 0
    ∧ ¬ 64 ≤ (ComputeSharedSecret sha256 xCoord d pub).length := by
  have h := hsha (xCoord (d • pub))
  unfold ComputeSharedSecret
  refine ⟨h, ?_, ?_⟩
  · simp [AESKeySize, h]
  · simp [h]

/-- Witness for C2 with a concrete 32-byte digest function. -/
theorem C2_sharedSecret_too_short_witness :
    (ComputeSharedSecret (fun _ => List.replicate 32 0) (fun n : Nat => n) 2 3).length = 32
    ∧ ((ComputeSharedSecret (fun _ => List.replicate 32 0) (fun n : Nat => n) 2 3).drop
        AESKeySize).length = 0
    ∧ ¬ 64 ≤ (ComputeSharedSecret (fun _ => List.replicate 32 0) (fun n : Nat => n) 2 3).length :=
  C2_sharedSecret_too_short (fun _ => List.replicate 32 0) (fun n : Nat => n) 2 3
    (fun _ => by simp)

/-- C3: a nonce present in the tracker is rejected by AddNonce with the
replay error, never accepted; consequently an envelope that verified
successfully once is rejected with the replay error when verified again in
sequence (inside the freshness window). -/
theorem C3_replay_rejection :
    (∀ (nonces : NonceMap) (nonce : List Nat) (now : Int),
      (nonces.lookup nonce).isSome →
      AddNonce nonces nonce now = .error .replayDetected)
    ∧ (∀ (P : Prims) (msg : Message) (secret rpub pt : List Nat) (now1 now2 : Int)
        (st st1 : VerifyState),
        VerifyAndDecryptMessage P msg secret rpub now1 st = (.ok pt, st1) →
        ¬ (MaxTimeDifference < now2 - msg.Timestamp ∨ now2 < msg.Timestamp - MaxTimeDifference) →
        (VerifyAndDecryptMessage P msg secret rpub now2 st1).1 = .error .replayDetected) := by
  constructor
  · exact fun nonces nonce now h => addNonce_present now h
  · intro P msg secret rpub pt now1 now2 st st1 hok hfresh
    have hrec : st1.nonces.lookup msg.Nonce = some now1 := by
      have hc := (verify_nonce_cases P msg secret rpub now1 st).2.2
      rw [hok] at hc
      exact hc (by simp) (by simp)
    have hsome : (st1.nonces.lookup msg.Nonce).isSome := by rw [hrec]; rfl
    unfold VerifyAndDecryptMessage
    rw [if_neg hfresh, addNonce_present now2 hsome]

/-- Witness for C3: a concrete envelope verifies once from an empty tracker
and is rejected as a replay one second later. -/
theorem C3_replay_rejection_witness :
    (VerifyAndDecryptMessage trivPrims
      { Timestamp := 0, Nonce := List.replicate 16 9, IV := List.replicate 16 0,
        Cipher := List.replicate 16 16, HMAC := [7], Signature := [1],
        PubKey := [4], RSASig := [2] }
      (List.replicate 64 0) [6] 1 ⟨[(List.replicate 16 9, 0)], 0⟩).1 =
      .error .replayDetected :=
  C3_replay_rejection.2 trivPrims
    { Timestamp := 0, Nonce := List.replicate 16 9, IV := List.replicate 16 0,
      Cipher := List.replicate 16 16, HMAC := [7], Signature := [1],
      PubKey := [4], RSASig := [2] }
    (List.replicate 64 0) [6] [] 0 1 ⟨[], 0⟩ ⟨[(List.replicate 16 9, 0)], 0⟩
    (by decide) (by decide)

/-- Past the freshness test, no branch of the receive path can produce the
stale-timestamp error. -/
theorem verify_not_stale (P : Prims) (msg : Message) (secret rpub : List Nat)
    (now : Int) (st : VerifyState)
    (hcond : ¬ (MaxTimeDifference < now - msg.Timestamp ∨ now < msg.Timestamp - MaxTimeDifference)) :
    (VerifyAndDecryptMessage P msg secret rpub now st).1 ≠ .error .staleTimestamp := by
  unfold VerifyAndDecryptMessage
  rw [if_neg hcond]
  cases h2 : AddNonce st.nonces msg.Nonce now with
  | error e =>
    have he : e = .replayDetected := addNonce_error h2
    subst he
    simp
  | ok ns =>
    dsimp only
    repeat' split
    all_goals simp

/-- C4: every outcome of VerifyAndDecryptMessage equals the outcome of running
the spec's six receive-path checks in their stated order with a short circuit
at the first failure, and the checks executed always form an initial segment
of that order (so no later check runs once an earlier one has failed). -/
theorem C4_check_order (P : Prims) (msg : Message) (secret rpub : List Nat)
    (now : Int) (st : VerifyState) :
    VerifyAndDecryptMessage P msg secret rpub now st =
      (VerifyTraced P msg secret rpub now st).1
    ∧ ∃ k, (VerifyTraced P msg secret rpub now st).2 = verifyCheckOrder.take k := by
  unfold VerifyAndDecryptMessage VerifyTraced
  by_cases h1 : MaxTimeDifference < now - msg.Timestamp ∨ now < msg.Timestamp - MaxTimeDifference
  · simp only [if_pos h1]
    refine ⟨?_, 1, ?_⟩ <;> first | rfl | trivial
  · simp only [if_neg h1]
    cases h2 : AddNonce st.nonces msg.Nonce now with
    | error e => exact ⟨rfl, 2, rfl⟩
    | ok ns =>
      dsimp only
      repeat' split
      all_goals
        first
        | exact ⟨rfl, 3, rfl⟩
        | exact ⟨rfl, 4, rfl⟩
        | exact ⟨rfl, 5, rfl⟩
        | exact ⟨rfl, 6, rfl⟩

/-- C5: the receive path returns the stale-timestamp rejection exactly when
now minus the envelope timestamp exceeds MaxTimeDifference in either
direction; in particular a timestamp of now minus window plus one is
rejected, now minus window minus one is not freshness-rejected, and a
timestamp more than the window into the future is rejected. -/
theorem C5_freshness_boundary (P : Prims) (msg : Message) (secret rpub : List Nat)
    (now : Int) (st : VerifyState) :
    ((VerifyAndDecryptMessage P msg secret rpub now st).1 = .error .staleTimestamp ↔
      MaxTimeDifference < now - msg.Timestamp ∨ MaxTimeDifference < msg.Timestamp - now)
    ∧ (msg.Timestamp = now - (MaxTimeDifference + 1) →
        (VerifyAndDecryptMessage P msg secret rpub now st).1 = .error .staleTimestamp)
    ∧ (msg.Timestamp = now - (MaxTimeDifference - 1) →
        (VerifyAndDecryptMessage P msg secret rpub now st).1 ≠ .error .staleTimestamp)
    ∧ (msg.Timestamp = now + (MaxTimeDifference + 1) →
        (VerifyAndDecryptMessage P msg secret rpub now st).1 = .error .staleTimestamp) := by
  have hequiv : (MaxTimeDifference < now - msg.Timestamp ∨ now < msg.Timestamp - MaxTimeDifference)
      ↔ (MaxTimeDifference < now - msg.Timestamp ∨ MaxTimeDifference < msg.Timestamp - now) := by
    omega
  have hmain : (VerifyAndDecryptMessage P msg secret rpub now st).1 = .error .staleTimestamp ↔
      MaxTimeDifference < now - msg.Timestamp ∨ MaxTimeDifference < msg.Timestamp - now := by
    constructor
    · intro h
      by_cases hcond : MaxTimeDifference < now - msg.Timestamp ∨
          now < msg.Timestamp - MaxTimeDifference
      · exact hequiv.mp hcond
      · exact absurd h (verify_not_stale P msg secret rpub now st hcond)
    · intro h
      unfold VerifyAndDecryptMessage
      rw [if_pos (hequiv.mpr h)]
  refine ⟨hmain, fun h => ?_, fun h => ?_, fun h => ?_⟩
  · exact hmain.mpr (by omega)
  · intro hc
    have := hmain.mp hc
    simp only [MaxTimeDifference] at this h
    omega
  · exact hmain.mpr (by omega)

/-- Witness for C5: at time 100, a timestamp of 69 (window plus one second
old) is rejected as stale. -/
theorem C5_freshness_boundary_witness :
    (VerifyAndDecryptMessage trivPrims
      { Timestamp := 69, Nonce := [5], IV := [], Cipher := [], HMAC := [9],
        Signature := [1], PubKey := [4], RSASig := [2] }
      [] [] 100 ⟨[], 0⟩).1 = .error .staleTimestamp :=
  (C5_freshness_boundary trivPrims
    { Timestamp := 69, Nonce := [5], IV := [], Cipher := [], HMAC := [9],
      Signature := [1], PubKey := [4], RSASig := [2] }
    [] [] 100 ⟨[], 0⟩).2.1 (by decide)

/-- C6 counterexample: with a 64-byte shared secret (so both secret segments
are well defined exactly as in the source) an envelope that passes freshness
but carries a wrong MAC tag is rejected at the MAC check, yet the nonce
tracker has changed, refuting the claim that a rejected envelope leaves the
tracker untouched. -/
theorem C6_counterexample :
    (VerifyAndDecryptMessage trivPrims
      { Timestamp := 0, Nonce := [5], IV := List.replicate 16 0,
        Cipher := List.replicate 16 16, HMAC := [9],
        Signature := [1], PubKey := [4], RSASig := [2] }
      (List.replicate 64 0) [6] 0 ⟨[], 0⟩).1 = .error .hmacFailed
    ∧ (VerifyAndDecryptMessage trivPrims
      { Timestamp := 0, Nonce := [5], IV := List.replicate 16 0,
        Cipher := List.replicate 16 16, HMAC := [9],
        Signature := [1], PubKey := [4], RSASig := [2] }
      (List.replicate 64 0) [6] 0 ⟨[], 0⟩).2.nonces ≠ ([] : NonceMap) := by
  constructor
  · decide
  · decide

/-- C6 amended: a nonce record is created on the first verification attempt
that passes the freshness and replay checks, whether or not a later check
succeeds; only envelopes rejected as stale or as replays leave the tracker
unchanged, so an envelope rejected at the MAC, signature or decryption stage
does consume its nonce. -/
theorem C6_nonce_consumed (P : Prims) (msg : Message) (secret rpub : List Nat)
    (now : Int) (st : VerifyState) :
    ((VerifyAndDecryptMessage P msg secret rpub now st).1 = .error .staleTimestamp →
      (VerifyAndDecryptMessage P msg secret rpub now st).2 = st)
    ∧ ((VerifyAndDecryptMessage P msg secret rpub now st).1 = .error .replayDetected →
      (VerifyAndDecryptMessage P msg secret rpub now st).2 = st)
    ∧ ((VerifyAndDecryptMessage P msg secret rpub now st).1 ≠ .error .staleTimestamp →
      (VerifyAndDecryptMessage P msg secret rpub now st).1 ≠ .error .replayDetected →
      (VerifyAndDecryptMessage P msg secret rpub now st).2.nonces.lookup msg.Nonce =
        some now) :=
  verify_nonce_cases P msg secret rpub now st

/-- Witness for C6 amended: the MAC-rejected envelope above (64-byte secret,
wrong tag) has consumed its nonce, which now maps to the verification time. -/
theorem C6_nonce_consumed_witness :
    (VerifyAndDecryptMessage trivPrims
      { Timestamp := 0, Nonce := [5], IV := List.replicate 16 0,
        Cipher := List.replicate 16 16, HMAC := [9],
        Signature := [1], PubKey := [4], RSASig := [2] }
      (List.replicate 64 0) [6] 0 ⟨[], 0⟩).2.nonces.lookup [5] = some 0 :=
  (C6_nonce_consumed trivPrims
    { Timestamp := 0, Nonce := [5], IV := List.replicate 16 0,
      Cipher := List.replicate 16 16, HMAC := [9],
      Signature := [1], PubKey := [4], RSASig := [2] }
    (List.replicate 64 0) [6] 0 ⟨[], 0⟩).2.2 (by decide) (by decide)

set_option maxRecDepth 20000 in
/-- C7: the load and the add of ConcurrencyCheck are two separate atomic
operations, so under concurrent callers the counter can exceed the cap of
100: starting from a zero counter, 101 threads that all perform their load
before any performs its add each see a value below the cap, all acquire, and
the counter reaches 101. -/
theorem C7_counter_exceeds_cap :
    (ccRun ⟨0, List.replicate 101 .ready⟩ (List.range 101 ++ List.range 101)).counter = 101
    ∧ maxConcurrentOps <
        (ccRun ⟨0, List.replicate 101 .ready⟩ (List.range 101 ++ List.range 101)).counter
    ∧ (ccRun ⟨0, List.replicate 101 .ready⟩ (List.range 101 ++ List.range 101)).threads =
        List.replicate 101 .acquired := by
  refine ⟨?_, ?_, ?_⟩ <;> decide

/-- C8: RateLimitCheck rejects exactly when less than minOpInterval has
elapsed since the client's recorded last accepted operation; a rejection
leaves the map unchanged; an acceptance records now as the client's
last-operation time and leaves only entries inside the retention window. -/
theorem C8_rateLimit (m : RateMap) (cid : String) (now : Int) :
    ((RateLimitCheck m cid now).1 = .error .tooFrequent ↔
      ∃ t, m.lookup cid = some t ∧ now - t < minOpInterval)
    ∧ ((RateLimitCheck m cid now).1 = .error .tooFrequent →
        (RateLimitCheck m cid now).2 = m)
    ∧ ((RateLimitCheck m cid now).1 = .ok () →
        ((RateLimitCheck m cid now).2.lookup cid = some now
         ∧ ∀ p ∈ (RateLimitCheck m cid now).2, now - rateRetention ≤ p.2)) := by
  have hR : (0 : Int) < rateRetention := by unfold rateRetention; omega
  have haccept : (rateEvict (setEntry m cid now) now).lookup cid = some now
      ∧ ∀ p ∈ rateEvict (setEntry m cid now) now, now - rateRetention ≤ p.2 := by
    constructor
    · unfold rateEvict setEntry
      rw [List.filter_cons_of_pos (by simp only [decide_eq_true_eq]; omega)]
      rw [List.lookup_cons]
      simp
    · intro p hp
      unfold rateEvict at hp
      have := (List.mem_filter.mp hp).2
      simp only [decide_eq_true_eq] at this
      omega
  unfold RateLimitCheck
  cases hl : m.lookup cid with
  | none =>
    dsimp only
    refine ⟨?_, ?_, ?_⟩
    · simp
    · intro h; simp at h
    · intro _; exact haccept
  | some t =>
    dsimp only
    by_cases ht : now - t < minOpInterval
    · rw [if_pos ht]
      refine ⟨?_, fun _ => rfl, ?_⟩
      · constructor
        · intro _
          exact ⟨t, rfl, ht⟩
        · intro _
          rfl
      · intro h; simp at h
    · rw [if_neg ht]
      refine ⟨?_, ?_, ?_⟩
      · constructor
        · intro h; simp at h
        · rintro ⟨t2, ht2, hlt⟩
          cases ht2
          exact absurd hlt ht
      · intro h; simp at h
      · intro _; exact haccept

/-- Witness for C8: client a, last operation at time 0, retried at time 5
nanoseconds: rejected, and the map is unchanged. -/
theorem C8_rateLimit_witness :
    (RateLimitCheck [("a", 0)] "a" 5).2 = [("a", 0)] :=
  (C8_rateLimit [("a", 0)] "a" 5).2.1 (by decide)

/-- C9: key agreement is symmetric in the two roles: with public points
derived from the same base point, ECDH-style ComputeSharedSecret gives
byte-identical secrets when the private and peer-public roles are swapped,
and ComputeDHSharedSecret over the same group parameters satisfies the same
symmetry for DH public values derived from the shared generator and prime. -/
theorem C9_key_agreement_symmetry {G : Type} [AddCommMonoid G]
    (sha256 : Nat → List Nat) (xCoord : G → Nat) (g : G) (dA dB : Nat) (pubA pubB : G)
    (hA : pubA = dA • g) (hB : pubB = dB • g)
    (hash : Nat → List Nat) (gN a b p : Nat) :
    ComputeSharedSecret sha256 xCoord dA pubB = ComputeSharedSecret sha256 xCoord dB pubA
    ∧ ComputeDHSharedSecret hash a (DHPublic gN b p) p
      = ComputeDHSharedSecret hash b (DHPublic gN a p) p := by
  constructor
  · subst hA hB
    unfold ComputeSharedSecret
    rw [smul_smul, smul_smul, Nat.mul_comm]
  · unfold ComputeDHSharedSecret DHPublic
    rw [← Nat.pow_mod, ← Nat.pow_mod, ← pow_mul, ← pow_mul, Nat.mul_comm]

/-- Witness for C9 at concrete scalars and group elements. -/
theorem C9_key_agreement_symmetry_witness :
    ComputeSharedSecret (fun n => [n]) (fun n : Nat => n) 2 ((3 : Nat) • (5 : Nat)) =
      ComputeSharedSecret (fun n => [n]) (fun n : Nat => n) 3 ((2 : Nat) • (5 : Nat))
    ∧ ComputeDHSharedSecret (fun n => [n]) 3 (DHPublic 2 4 11) 11
      = ComputeDHSharedSecret (fun n => [n]) 4 (DHPublic 2 3 11) 11 :=
  C9_key_agreement_symmetry (fun n => [n]) (fun n : Nat => n) 5 2 3
    ((2 : Nat) • (5 : Nat)) ((3 : Nat) • (5 : Nat)) rfl rfl (fun n => [n]) 2 3 4 11

/-- C10: when admission control denies AESEncrypt at the concurrency cap, the
operation returns the nil ciphertext with no error indication, and
CreateSecureMessage still assembles a success-shaped envelope whose
ciphertext is empty. -/
theorem C10_silent_nil_on_denial :
    AESEncrypt trivPrims (List.replicate 32 0) (List.replicate 16 0) [1, 2, 3] 100 =
      (.deniedNil, 100)
    ∧ ((CreateSecureMessage trivPrims [1, 2, 3] (List.replicate 64 0) [3] [4] [5]
        (List.replicate 16 0) (List.replicate 16 9) 0 100).1).map (fun m => m.Cipher) =
      some [] := by
  constructor
  · decide
  · decide

end ClientServer
